import Mathlib

/-!
Verification of the kubectl-safe command-line safety wrapper.

The Go sources are shallowly embedded here.  Go strings are modelled as
`List Char` (`GoStr`), Go's `strings` package helpers are translated one by
one, and each Go function of the two package lineages is translated into a
computable Lean definition:

* `KubectlSafe.Safe`    — pkg/safe/safe.go, first lineage (no kubeconfig
  context verification);
* `KubectlSafe.SafeV2`  — pkg/safe/safe.go, second lineage (verifies the
  extracted context value against `kubectl config get-contexts`);
* `KubectlSafe.MainGo`  — the stand-alone root main.go lineage.

Effects are made explicit: the result of reading one line from standard
input is a `ReadLine` value, the exit state of the spawned child process is
a `RunResult`, and the orchestration functions return the list of performed
events / printed messages next to their `Except` result.
-/

deriving instance DecidableEq for Except

namespace KubectlSafe

/-- A Go string, modelled as its list of characters. -/
abbrev GoStr := List Char

/-- The character list of a Lean string literal. -/
def chars (s : String) : GoStr := s.data

/-- Go `strings.HasPrefix(s, pre)`. -/
def goStartsWith (s pre : GoStr) : Bool := List.isPrefixOf pre s

/-- Go `strings.TrimPrefix(s, pre)`: drops `pre` when it is a prefix of `s`. -/
def goTrimLead (s pre : GoStr) : GoStr :=
  if goStartsWith s pre then s.drop pre.length else s

/-- Go `strings.TrimSpace`: remove leading and trailing whitespace. -/
def goTrimSpace (s : GoStr) : GoStr :=
  ((s.dropWhile Char.isWhitespace).reverse.dropWhile Char.isWhitespace).reverse

/-- Go `strings.ToLower` (ASCII letters, which is all the program compares). -/
def goToLower (s : GoStr) : GoStr := s.map Char.toLower

/-- Go `strings.Join(elems, sep)`. -/
def goJoin (elems : List GoStr) (sep : GoStr) : GoStr := List.intercalate sep elems

/-- Go `strings.Split(s, "\n")`. -/
def goSplitLines (s : GoStr) : List GoStr := List.splitOn '\n' s

/-- Go `strings.Contains(s, sub)`. -/
def goContains (s sub : GoStr) : Bool := s.tails.any fun t => List.isPrefixOf sub t

/-- Go `strings.SplitN(s, "=", 2)[1]`: everything after the first `=`. -/
def afterEq (s : GoStr) : GoStr := (s.dropWhile fun c => c ≠ '=').drop 1

/-- Result of one line read from standard input (`bufio.Reader.ReadString`):
the data read and the error, if any. -/
structure ReadLine where
  line : GoStr
  err : Option GoStr
deriving DecidableEq

/-- Exit state of a spawned child process. -/
inductive RunResult where
  | spawnErr (msg : GoStr)
  | exited (code : Nat)
deriving DecidableEq

/-- The error value of Go's `exec.Cmd.Run`: `nil` exactly when the child
exited with status 0; a non-zero exit produces an `ExitError` whose message
is `exit status N`. -/
def runResultErr : RunResult → Option GoStr
  | .spawnErr m => some m
  | .exited c => if c = 0 then none else some (chars "exit status " ++ chars (toString c))

end KubectlSafe

namespace KubectlSafe.Safe

/-- pkg/safe/safe.go (first lineage): the `DangerousCommands` table. -/
def DangerousCommands : List GoStr :=
  [chars "delete", chars "apply", chars "create", chars "replace",
   chars "patch", chars "edit", chars "scale", chars "rollout",
   chars "drain", chars "cordon", chars "uncordon", chars "taint"]

/-- pkg/safe/safe.go `isDangerousCommand`: the first argument, when present,
is looked up in `DangerousCommands`. -/
def isDangerousCommand (args : List GoStr) : Bool :=
  match args with
  | [] => false
  | command :: _ => DangerousCommands.contains command

/-- One iteration of the scanning loop of `validateRequiredFlags`:
updates the `hasContext` and `hasNamespace` booleans from one argument. -/
def flagScanStep (st : Bool × Bool) (arg : GoStr) : Bool × Bool :=
  let hasContext := if arg == chars "--context" || arg == chars "-c" then true else st.1
  let hasNamespace := if arg == chars "--namespace" || arg == chars "-n" then true else st.2
  let hasContext :=
    if goStartsWith arg (chars "--context=") || goStartsWith arg (chars "-c=") then true
    else hasContext
  let hasNamespace :=
    if goStartsWith arg (chars "--namespace=") || goStartsWith arg (chars "-n=") then true
    else hasNamespace
  (hasContext, hasNamespace)

/-- The missing-flag error message of `validateRequiredFlags`. -/
def missingMsg (missing : List GoStr) : GoStr :=
  chars "dangerous command requires explicit " ++ goJoin missing (chars " and ") ++
    chars " flag(s). This ensures you're targeting the correct cluster and namespace"

/-- pkg/safe/safe.go (first lineage) `validateRequiredFlags`. -/
def validateRequiredFlags (args : List GoStr) : Except GoStr Unit :=
  let scan := args.foldl flagScanStep (false, false)
  let missing : List GoStr :=
    (if scan.1 then [] else [chars "--context"]) ++
    (if scan.2 then [] else [chars "--namespace"])
  if missing.length > 0 then .error (missingMsg missing) else .ok ()

/-- pkg/safe/safe.go `extractFlagValue`: scans left to right for
`--flag=value`, `-f=value`, or a bare flag followed by its value; returns
the sentinel `<not specified>` when nothing matches. -/
def extractFlagValue : List GoStr → GoStr → GoStr → GoStr
  | [], _, _ => chars "<not specified>"
  | arg :: rest, longFlag, shortFlag =>
    if goStartsWith arg (longFlag ++ chars "=") then goTrimLead arg (longFlag ++ chars "=")
    else if goStartsWith arg (shortFlag ++ chars "=") then goTrimLead arg (shortFlag ++ chars "=")
    else if (arg == longFlag || arg == shortFlag) && !rest.isEmpty then rest.headD []
    else extractFlagValue rest longFlag shortFlag

/-- The lines `showConfirmation` prints before reading standard input. -/
def confirmPrompts (args : List GoStr) : List GoStr :=
  [chars "⚠️  DANGEROUS COMMAND DETECTED ⚠️\n\n",
   chars "You are about to execute: kubectl " ++ goJoin args (chars " ") ++ chars "\n\n",
   chars "Target Details:\n",
   chars "  Context:   " ++ extractFlagValue args (chars "--context") (chars "-c") ++ chars "\n",
   chars "  Namespace: " ++ extractFlagValue args (chars "--namespace") (chars "-n") ++ chars "\n\n",
   chars "This operation may cause data loss or service disruption.\n",
   chars "Are you sure you want to continue? (yes/no): "]

/-- pkg/safe/safe.go `showConfirmation`: returns the printed lines and the
outcome.  A read error is wrapped into `failed to read user input`; a
response other than (lowercased, trimmed) `yes`/`y` cancels. -/
def showConfirmation (args : List GoStr) (stdin : ReadLine) : List GoStr × Except GoStr Unit :=
  match stdin.err with
  | some e => (confirmPrompts args, .error (chars "failed to read user input: " ++ e))
  | none =>
    let response := goTrimSpace (goToLower stdin.line)
    if response != chars "yes" && response != chars "y" then
      (confirmPrompts args ++ [chars "Operation cancelled.\n"],
       .error (chars "operation cancelled by user"))
    else
      (confirmPrompts args ++ [chars "Proceeding with operation...\n"], .ok ())

/-- pkg/safe/safe.go `executeKubectl`: spawn `kubectl args...` with inherited
streams and return `cmd.Run()`. -/
def executeKubectl (args : List GoStr) (child : RunResult) : Except GoStr Unit :=
  match runResultErr child with
  | none => .ok ()
  | some e => .error e

/-- Text before the dangerous-command list inside the usage message. -/
def usagePre : GoStr :=
  chars "kubectl-safe: Interactive safety net for dangerous kubectl commands\n\nUsage:\n  kubectl safe <kubectl-command> [flags]\n\nThis plugin acts as a safety wrapper around kubectl commands. For dangerous operations,\nit will:\n  - Require explicit --context and --namespace flags\n  - Show an interactive confirmation prompt\n  - Display target cluster and namespace information\n\nExamples:\n  kubectl safe delete pod mypod --context=prod --namespace=default\n  kubectl safe apply -f deployment.yaml --context=staging --namespace=myapp\n\nDangerous commands that trigger safety checks:\n  "

/-- Text after the dangerous-command list inside the usage message. -/
def usagePost : GoStr :=
  chars "\n\nFor safe commands, this plugin acts as a transparent pass-through to kubectl.\n\n"

/-- The full text printed by `showUsage`. -/
def usageText : GoStr := usagePre ++ goJoin DangerousCommands (chars ", ") ++ usagePost

/-- pkg/safe/safe.go `showUsage`: prints the usage text, always succeeds. -/
def showUsage : List GoStr × Except GoStr Unit := ([usageText], .ok ())

/-- The observable steps `Execute` performs. -/
inductive Event where
  | usageShown
  | validateFlags (args : List GoStr)
  | confirmStep (args : List GoStr)
  | runKubectl (args : List GoStr)
deriving DecidableEq

/-- The environment of one run: the argument vector (`os.Args[1:]`), the
pending standard-input line, and the exit state the spawned `kubectl`
child would have. -/
structure Env where
  args : List GoStr
  stdin : ReadLine
  child : RunResult

/-- Result of `Execute`: performed events, printed lines, and the returned
error, if any. -/
structure ExecRes where
  events : List Event
  outputs : List GoStr
  result : Except GoStr Unit
deriving DecidableEq

/-- pkg/safe/safe.go `Execute` (first lineage): usage on no arguments,
direct pass-through for safe commands, and flag validation followed by
confirmation for dangerous ones. -/
def Execute (env : Env) : ExecRes :=
  if env.args.length = 0 then
    ⟨[.usageShown], showUsage.1, showUsage.2⟩
  else if !isDangerousCommand env.args then
    ⟨[.runKubectl env.args], [], executeKubectl env.args env.child⟩
  else
    match validateRequiredFlags env.args with
    | .error e => ⟨[.validateFlags env.args], [], .error e⟩
    | .ok _ =>
      match (showConfirmation env.args env.stdin).2 with
      | .error e =>
        ⟨[.validateFlags env.args, .confirmStep env.args],
         (showConfirmation env.args env.stdin).1, .error e⟩
      | .ok _ =>
        ⟨[.validateFlags env.args, .confirmStep env.args, .runKubectl env.args],
         (showConfirmation env.args env.stdin).1, executeKubectl env.args env.child⟩

/-- cmd/kubectl-safe/main.go: exit status 1 when `safe.Execute` returns an
error, 0 otherwise. -/
def mainExitCode (env : Env) : Nat :=
  match (Execute env).result with
  | .ok _ => 0
  | .error _ => 1

end KubectlSafe.Safe

namespace KubectlSafe.SafeV2

open KubectlSafe.Safe in
/-- pkg/safe/safe.go (second lineage) `getKubeconfigContexts`: parses the
captured output of `kubectl config get-contexts --output=name` into one
context name per non-blank line; a failed call is wrapped into a
`failed to execute` error.  The subprocess outcome is the explicit
`kubeOut` argument. -/
def getKubeconfigContexts (kubeOut : Except GoStr GoStr) : Except GoStr (List GoStr) :=
  match kubeOut with
  | .error e => .error (chars "failed to execute kubectl config get-contexts: " ++ e)
  | .ok output =>
    let outputStr := goTrimSpace output
    if outputStr == chars "" then .ok []
    else
      let contexts := goSplitLines outputStr
      .ok ((contexts.filter fun c => goTrimSpace c != chars "").map goTrimSpace)

/-- One iteration of the scanning loop of the second-lineage
`validateRequiredFlags`: like the first lineage it tracks the two presence
booleans, and it additionally records the extracted context value whenever
an argument uses the `--context=`/`-c=` shape. -/
def flagScanStepV2 (args : List GoStr) (st : Bool × Bool × GoStr) (arg : GoStr) :
    Bool × Bool × GoStr :=
  let hasContext := if arg == chars "--context" || arg == chars "-c" then true else st.1
  let hasNamespace := if arg == chars "--namespace" || arg == chars "-n" then true else st.2.1
  let cv :=
    if goStartsWith arg (chars "--context=") || goStartsWith arg (chars "-c=") then
      Safe.extractFlagValue args (chars "--context") (chars "-c")
    else st.2.2
  let hasContext :=
    if goStartsWith arg (chars "--context=") || goStartsWith arg (chars "-c=") then true
    else hasContext
  let hasNamespace :=
    if goStartsWith arg (chars "--namespace=") || goStartsWith arg (chars "-n=") then true
    else hasNamespace
  (hasContext, hasNamespace, cv)

/-- The unknown-context error message of the second-lineage validator. -/
def notFoundMsg (contextValue : GoStr) (availableContexts : List GoStr) : GoStr :=
  chars "context '" ++ contextValue ++ chars "' not found in kubeconfig. Available contexts: " ++
    goJoin availableContexts (chars ", ")

/-- pkg/safe/safe.go (second lineage) `validateRequiredFlags`: the presence
scan of the first lineage, followed — when a context value was provided —
by a verification of that value against the kubeconfig contexts. -/
def validateRequiredFlags (args : List GoStr) (kubeOut : Except GoStr GoStr) :
    Except GoStr Unit :=
  let scan := args.foldl (flagScanStepV2 args) (false, false, chars "")
  let hasContext := scan.1
  let hasNamespace := scan.2.1
  let contextValue :=
    if hasContext && scan.2.2 == chars "" then
      Safe.extractFlagValue args (chars "--context") (chars "-c")
    else scan.2.2
  let missing : List GoStr :=
    (if hasContext then [] else [chars "--context"]) ++
    (if hasNamespace then [] else [chars "--namespace"])
  if missing.length > 0 then .error (Safe.missingMsg missing)
  else if hasContext && contextValue != chars "" && contextValue != chars "<not specified>" then
    match getKubeconfigContexts kubeOut with
    | .error e => .error (chars "failed to get available contexts from kubeconfig: " ++ e)
    | .ok availableContexts =>
      if availableContexts.contains contextValue then .ok ()
      else .error (notFoundMsg contextValue availableContexts)
  else .ok ()

/-- The environment of one second-lineage run: additionally carries the
outcome of the captured `kubectl config get-contexts` call. -/
structure Env where
  args : List GoStr
  stdin : ReadLine
  kubeOut : Except GoStr GoStr
  child : RunResult

/-- pkg/safe/safe.go (second lineage) `Execute`: identical orchestration to
the first lineage, but flag validation also verifies the context value. -/
def Execute (env : Env) : Safe.ExecRes :=
  if env.args.length = 0 then
    ⟨[.usageShown], Safe.showUsage.1, Safe.showUsage.2⟩
  else if !Safe.isDangerousCommand env.args then
    ⟨[.runKubectl env.args], [], Safe.executeKubectl env.args env.child⟩
  else
    match validateRequiredFlags env.args env.kubeOut with
    | .error e => ⟨[.validateFlags env.args], [], .error e⟩
    | .ok _ =>
      match (Safe.showConfirmation env.args env.stdin).2 with
      | .error e =>
        ⟨[.validateFlags env.args, .confirmStep env.args],
         (Safe.showConfirmation env.args env.stdin).1, .error e⟩
      | .ok _ =>
        ⟨[.validateFlags env.args, .confirmStep env.args, .runKubectl env.args],
         (Safe.showConfirmation env.args env.stdin).1, Safe.executeKubectl env.args env.child⟩

/-- cmd/kubectl-safe/main.go on top of the second lineage. -/
def mainExitCode (env : Env) : Nat :=
  match (Execute env).result with
  | .ok _ => 0
  | .error _ => 1

end KubectlSafe.SafeV2

namespace KubectlSafe.MainGo

/-- main.go: the `dangerousCommands` table (a `map[string]bool`; the keys
mapped to `true`). -/
def dangerousCommands : List GoStr :=
  [chars "delete", chars "apply", chars "edit", chars "patch",
   chars "rollout", chars "scale", chars "create", chars "replace"]

/-- The state of main.go's argument-scanning loop:
`(context, namespace, contextIsSet, namespaceIsSet)`. -/
abbrev ParseState := GoStr × GoStr × Bool × Bool

/-- One iteration of main.go's argument-scanning loop, given the current
argument and the (possibly empty) remainder of the vector, from which the
look-ahead `args[i+1]` is taken. -/
def parseStep (st : ParseState) (arg : GoStr) (rest : List GoStr) : ParseState :=
  if goStartsWith arg (chars "--context=") then (afterEq arg, st.2.1, true, st.2.2.2)
  else if goStartsWith arg (chars "--namespace=") then (st.1, afterEq arg, st.2.2.1, true)
  else if arg == chars "--context" || arg == chars "-n" || arg == chars "--namespace" then
    match rest with
    | next :: _ =>
      if arg == chars "--context" then (next, st.2.1, true, st.2.2.2)
      else (st.1, next, st.2.2.1, true)
    | [] => st
  else st

/-- main.go's argument-scanning loop, left to right. -/
def parseCNAux (st : ParseState) : List GoStr → ParseState
  | [] => st
  | arg :: rest => parseCNAux (parseStep st arg rest) rest

/-- main.go `parseContextAndNamespace` (second lineage; the first lineage's
in-line loop in `main` is the same code): returns
`(context, namespace, contextIsSet, namespaceIsSet)`.  Only the shapes
`--context=v`, `--namespace=v`, and a bare `--context`/`-n`/`--namespace`
followed by a further element are recognized — the short forms `-c`,
`-c=v` and `-n=v` are not. -/
def parseContextAndNamespace (args : List GoStr) : ParseState :=
  parseCNAux (chars "", chars "", false, false) args

/-- main.go `askForConfirmation` (second lineage): a read error prints an
error and cancels; otherwise the trimmed, lowercased line must equal
exactly `y`. -/
def askForConfirmation (stdin : ReadLine) : Bool :=
  match stdin.err with
  | some _ => false
  | none => goToLower (goTrimSpace stdin.line) == chars "y"

/-- main.go `askForConfirmation` (first lineage, lines 128–132): the read
error is discarded with `_`, and the data read so far is compared against
exactly `y`. -/
def askForConfirmationV1 (stdin : ReadLine) : Bool :=
  goToLower (goTrimSpace stdin.line) == chars "y"

/-- main.go `contextExists`: an empty context, a failed
`kubectl config get-contexts` call, and a context absent from the returned
lines all alike yield `false`. -/
def contextExists (context : GoStr) (kubeOut : Except GoStr GoStr) : Bool :=
  if context == chars "" then false
  else
    match kubeOut with
    | .error _ => false
    | .ok output => (goSplitLines output).contains context

/-- main.go `confirmProductionContext`: when the lowercased context
contains `prod`, the typed line (trimmed) must equal the context name
exactly; otherwise an ordinary y/n confirmation is used. -/
def confirmProductionContext (context : GoStr) (stdin : ReadLine) : Bool :=
  if goContains (goToLower context) (chars "prod") then
    match stdin.err with
    | some _ => false
    | none => goTrimSpace stdin.line == context
  else askForConfirmation stdin

/-- main.go `printCommandSummary`. -/
def summaryMsgs (allArgs : List GoStr) (context namespc : GoStr) : List GoStr :=
  [chars "You are about to run the following command:",
   chars "  kubectl " ++ goJoin allArgs (chars " "),
   chars "on context " ++ context ++ chars " in namespace " ++ namespc]

/-- The environment of one run of the stand-alone main.go binary:
`argv` is `os.Args[1:]`. -/
structure Env where
  argv : List GoStr
  stdin : ReadLine
  kubeOut : Except GoStr GoStr
  child : RunResult

/-- main.go `executeKubectl` exits the process with status 1 as soon as
`cmd.Run` fails, and otherwise lets `main` finish with status 0. -/
def exitOf (child : RunResult) : Nat :=
  match runResultErr child with
  | none => 0
  | some _ => 1

/-- Result of the stand-alone main.go binary: the argument vectors passed
to the spawned `kubectl` (through `executeKubectl`), the printed messages,
and the final exit status. -/
structure MainRes where
  calls : List (List GoStr)
  msgs : List GoStr
  exit : Nat
deriving DecidableEq

/-- main.go `main` (second lineage): no arguments run bare `kubectl`;
safe commands pass through; dangerous commands require the context and
namespace flags, an existing context, and an interactive confirmation. -/
def mainGo (env : Env) : MainRes :=
  if env.argv.isEmpty then
    ⟨[[]], [], exitOf env.child⟩
  else
    let command := env.argv.headD []
    let kubectlArgs := env.argv.tail
    let allArgs := env.argv
    if !dangerousCommands.contains command then
      ⟨[allArgs], [chars "--> Safe command detected. Passing directly to kubectl...\n"],
       exitOf env.child⟩
    else
      let p := parseContextAndNamespace kubectlArgs
      let foundContext := p.1
      let foundNamespace := p.2.1
      let missingMsgs : List GoStr :=
        (if p.2.2.1 then [] else
          [chars "ERROR: The --context flag is mandatory for the dangerous command '" ++
            command ++ chars "'."]) ++
        (if p.2.2.2 then [] else
          [chars "WARNING: The --namespace (-n) flag is mandatory for the dangerous command '" ++
            command ++ chars "'.\n"])
      if !missingMsgs.isEmpty then
        ⟨[], missingMsgs ++ [chars "\nPlease specify the cluster and namespace and try again."], 1⟩
      else if !contextExists foundContext env.kubeOut then
        ⟨[], [chars "ERROR: The specified context '" ++ foundContext ++
                chars "' does not exist in your kubeconfig.",
              chars "Please check your --context value and try again."], 1⟩
      else if !confirmProductionContext foundContext env.stdin then
        ⟨[], summaryMsgs allArgs foundContext foundNamespace, 1⟩
      else
        ⟨[allArgs],
         summaryMsgs allArgs foundContext foundNamespace ++
           [chars "--- All checks passed. Executing command. ---"],
         exitOf env.child⟩

end KubectlSafe.MainGo

namespace KubectlSafe.Safe

/-- The four textual shapes in which the targeting-context flag may occur:
bare long flag, bare short flag, `long=value`, `short=value`. -/
def ctxShape (arg : GoStr) : Bool :=
  arg == chars "--context" || arg == chars "-c" ||
    goStartsWith arg (chars "--context=") || goStartsWith arg (chars "-c=")

/-- The four textual shapes in which the namespace flag may occur. -/
def nsShape (arg : GoStr) : Bool :=
  arg == chars "--namespace" || arg == chars "-n" ||
    goStartsWith arg (chars "--namespace=") || goStartsWith arg (chars "-n=")

/-- Formalisation of the spec's words for the required-flag validator:
succeed exactly when each required flag occurs somewhere in the vector in
one of its four shapes; otherwise fail naming exactly the missing flag(s),
joined with `and` when both are missing. -/
def specValidateRequiredFlags (args : List GoStr) : Except GoStr Unit :=
  if args.any ctxShape then
    if args.any nsShape then .ok ()
    else .error (missingMsg [chars "--namespace"])
  else
    if args.any nsShape then .error (missingMsg [chars "--context"])
    else .error (missingMsg [chars "--context", chars "--namespace"])

/-- `arg` matches none of the shapes `extractFlagValue` looks for (with
respect to the given flag pair). -/
def noFlagMatch (longFlag shortFlag arg : GoStr) : Bool :=
  !(goStartsWith arg (longFlag ++ chars "=") || goStartsWith arg (shortFlag ++ chars "=") ||
    arg == longFlag || arg == shortFlag)

end KubectlSafe.Safe

namespace KubectlSafe.SafeV2

/-- The `--context=` / `-c=` shapes, which are the ones that make the
second-lineage scanning loop record a context value. -/
def eqCtxShape (arg : GoStr) : Bool :=
  goStartsWith arg (chars "--context=") || goStartsWith arg (chars "-c=")

/-- The context value the second-lineage validator ends up verifying. -/
def extractContextValue (args : List GoStr) : GoStr :=
  Safe.extractFlagValue args (chars "--context") (chars "-c")

/-- The error message the second-lineage validator produces when the
context-listing subprocess itself fails with message `e`: the validator
wraps the `getKubeconfigContexts` error once more. -/
def lookupFailMsg (e : GoStr) : GoStr :=
  chars "failed to get available contexts from kubeconfig: " ++
    (chars "failed to execute kubectl config get-contexts: " ++ e)

/-- Derived normal form of the second-lineage validator: presence is
decided by the scan alone, and the kubeconfig verification runs only when
the extracted context value is non-empty and differs from the sentinel. -/
def validateSpec (args : List GoStr) (kubeOut : Except GoStr GoStr) : Except GoStr Unit :=
  if args.any Safe.ctxShape then
    if args.any Safe.nsShape then
      let cv := extractContextValue args
      if cv != chars "" && cv != chars "<not specified>" then
        match getKubeconfigContexts kubeOut with
        | .error e => .error (chars "failed to get available contexts from kubeconfig: " ++ e)
        | .ok availableContexts =>
          if availableContexts.contains cv then .ok ()
          else .error (notFoundMsg cv availableContexts)
      else .ok ()
    else .error (Safe.missingMsg [chars "--namespace"])
  else
    if args.any Safe.nsShape then .error (Safe.missingMsg [chars "--context"])
    else .error (Safe.missingMsg [chars "--context", chars "--namespace"])

end KubectlSafe.SafeV2


namespace KubectlSafe.Safe

theorem flagScanStep_eq (st : Bool × Bool) (arg : GoStr) :
    flagScanStep st arg = (st.1 || ctxShape arg, st.2 || nsShape arg) := by
  unfold flagScanStep ctxShape nsShape
  cases h1 : arg == chars "--context" <;>
  cases h2 : arg == chars "-c" <;>
  cases h3 : goStartsWith arg (chars "--context=") <;>
  cases h4 : goStartsWith arg (chars "-c=") <;>
  cases h5 : arg == chars "--namespace" <;>
  cases h6 : arg == chars "-n" <;>
  cases h7 : goStartsWith arg (chars "--namespace=") <;>
  cases h8 : goStartsWith arg (chars "-n=") <;>
  simp [h1, h2, h3, h4, h5, h6, h7, h8]

theorem foldl_flagScanStep (args : List GoStr) (a b : Bool) :
    args.foldl flagScanStep (a, b) = (a || args.any ctxShape, b || args.any nsShape) := by
  induction args generalizing a b with
  | nil => simp
  | cons x xs ih =>
    simp only [List.foldl_cons, List.any_cons]
    rw [flagScanStep_eq]
    simp only [ih, Bool.or_assoc]

theorem validateRequiredFlags_eq_spec (args : List GoStr) :
    validateRequiredFlags args = specValidateRequiredFlags args := by
  simp only [validateRequiredFlags, specValidateRequiredFlags, foldl_flagScanStep, Bool.false_or]
  cases hc : args.any ctxShape <;> cases hn : args.any nsShape <;> simp

end KubectlSafe.Safe

namespace KubectlSafe.SafeV2

theorem flagScanStepV2_eq (args : List GoStr) (st : Bool × Bool × GoStr) (arg : GoStr) :
    flagScanStepV2 args st arg =
      (st.1 || Safe.ctxShape arg, st.2.1 || Safe.nsShape arg,
       if eqCtxShape arg then extractContextValue args else st.2.2) := by
  unfold flagScanStepV2 Safe.ctxShape Safe.nsShape eqCtxShape extractContextValue
  cases h1 : arg == chars "--context" <;>
  cases h2 : arg == chars "-c" <;>
  cases h3 : goStartsWith arg (chars "--context=") <;>
  cases h4 : goStartsWith arg (chars "-c=") <;>
  cases h5 : arg == chars "--namespace" <;>
  cases h6 : arg == chars "-n" <;>
  cases h7 : goStartsWith arg (chars "--namespace=") <;>
  cases h8 : goStartsWith arg (chars "-n=") <;>
  simp [h1, h2, h3, h4, h5, h6, h7, h8]

theorem foldl_flagScanStepV2 (args l : List GoStr) (a b : Bool) (cv : GoStr) :
    l.foldl (flagScanStepV2 args) (a, b, cv) =
      (a || l.any Safe.ctxShape, b || l.any Safe.nsShape,
       if l.any eqCtxShape then extractContextValue args else cv) := by
  induction l generalizing a b cv with
  | nil => simp
  | cons x xs ih =>
    simp only [List.foldl_cons, List.any_cons]
    rw [flagScanStepV2_eq]
    simp only [ih]
    rcases Bool.eq_false_or_eq_true (eqCtxShape x) with h1 | h1 <;>
      rcases Bool.eq_false_or_eq_true (xs.any eqCtxShape) with h2 | h2 <;>
      simp [h1, h2, Bool.or_assoc]

theorem validateRequiredFlagsV2_eq_spec (args : List GoStr) (kubeOut : Except GoStr GoStr) :
    validateRequiredFlags args kubeOut = validateSpec args kubeOut := by
  simp only [validateRequiredFlags, validateSpec, foldl_flagScanStepV2, Bool.false_or]
  rcases Bool.eq_false_or_eq_true (args.any Safe.ctxShape) with hc | hc <;>
    rcases Bool.eq_false_or_eq_true (args.any Safe.nsShape) with hn | hn <;>
    rcases Bool.eq_false_or_eq_true (args.any eqCtxShape) with he | he <;>
    simp [hc, hn, he, extractContextValue, ite_self]

end KubectlSafe.SafeV2

namespace KubectlSafe.Safe

theorem goStartsWith_append_self (p v : GoStr) : goStartsWith (p ++ v) p = true := by
  exact List.isPrefixOf_iff_prefix.mpr (List.prefix_append p v)

theorem goTrimLead_append (p v : GoStr) : goTrimLead (p ++ v) p = v := by
  unfold goTrimLead
  rw [if_pos (goStartsWith_append_self p v)]
  exact List.drop_left p v

theorem goStartsWith_false_of_shorter (s pre : GoStr) (h : s.length < pre.length) :
    goStartsWith s pre = false := by
  rcases Bool.eq_false_or_eq_true (goStartsWith s pre) with hb | hb
  · have hpre : pre <+: s := List.isPrefixOf_iff_prefix.mp hb
    exact absurd hpre.length_le (Nat.not_le_of_lt h)
  · exact hb

theorem subset_of_goStartsWith (s pre : GoStr) (h : goStartsWith s pre = true) : pre ⊆ s := by
  have hpre : pre <+: s := List.isPrefixOf_iff_prefix.mp h
  exact hpre.subset

theorem goStartsWith_eqflag_false (s q : GoStr) (hs : '=' ∉ s) :
    goStartsWith s (q ++ chars "=") = false := by
  rcases Bool.eq_false_or_eq_true (goStartsWith s (q ++ chars "=")) with hb | hb
  · exact absurd (subset_of_goStartsWith s (q ++ chars "=") hb
      (List.mem_append.mpr (Or.inr (List.mem_singleton.mpr rfl)))) hs
  · exact hb

theorem eqfree_eq_of_goStartsWith (p : GoStr) (hp : '=' ∉ p) :
    ∀ (q v : GoStr), '=' ∉ q →
      goStartsWith ((q ++ chars "=") ++ v) (p ++ chars "=") = true → p = q := by
  induction p with
  | nil =>
    intro q v hq h
    cases q with
    | nil => rfl
    | cons b bs =>
      exfalso
      simp only [goStartsWith, chars, List.nil_append, List.cons_append,
        List.isPrefixOf, Bool.and_eq_true, beq_iff_eq] at h
      exact hq (h.1 ▸ List.mem_cons_self b bs)
  | cons a as ih =>
    intro q v hq h
    cases q with
    | nil =>
      exfalso
      simp only [goStartsWith, chars, List.nil_append, List.cons_append,
        List.isPrefixOf, Bool.and_eq_true, beq_iff_eq] at h
      exact hp (h.1 ▸ List.mem_cons_self a as)
    | cons b bs =>
      have hp' : '=' ∉ as := fun hm => hp (List.mem_cons_of_mem a hm)
      have hq' : '=' ∉ bs := fun hm => hq (List.mem_cons_of_mem b hm)
      simp only [goStartsWith, chars, List.cons_append, List.isPrefixOf,
        Bool.and_eq_true, beq_iff_eq] at h
      have : as = bs := ih hp' bs v hq' h.2
      rw [h.1, this]

theorem extractFlagValue_cons_skip (a : GoStr) (t : List GoStr) (longFlag shortFlag : GoStr)
    (h : noFlagMatch longFlag shortFlag a = true) :
    extractFlagValue (a :: t) longFlag shortFlag = extractFlagValue t longFlag shortFlag := by
  simp only [noFlagMatch, Bool.not_eq_eq_eq_not, Bool.not_true, Bool.or_eq_false_iff,
    beq_eq_false_iff_ne, ne_eq] at h
  conv_lhs => unfold extractFlagValue
  rw [if_neg (by simp [h.1.1.1]), if_neg (by simp [h.1.1.2]),
    if_neg (by simp [h.1.2, h.2])]

theorem extractFlagValue_append_skip (pre rest : List GoStr) (longFlag shortFlag : GoStr)
    (h : ∀ a ∈ pre, noFlagMatch longFlag shortFlag a = true) :
    extractFlagValue (pre ++ rest) longFlag shortFlag =
      extractFlagValue rest longFlag shortFlag := by
  induction pre with
  | nil => rfl
  | cons a t ih =>
    rw [List.cons_append,
      extractFlagValue_cons_skip a (t ++ rest) longFlag shortFlag (h a (List.mem_cons_self a t)),
      ih fun x hx => h x (List.mem_cons_of_mem a hx)]

theorem extractFlagValue_long_eq (longFlag shortFlag v : GoStr) (t : List GoStr) :
    extractFlagValue ((longFlag ++ chars "=" ++ v) :: t) longFlag shortFlag = v := by
  conv_lhs => unfold extractFlagValue
  rw [if_pos (goStartsWith_append_self (longFlag ++ chars "=") v)]
  exact goTrimLead_append (longFlag ++ chars "=") v

theorem extractFlagValue_short_eq (longFlag shortFlag v : GoStr) (t : List GoStr)
    (hl : '=' ∉ longFlag) (hs : '=' ∉ shortFlag) :
    extractFlagValue ((shortFlag ++ chars "=" ++ v) :: t) longFlag shortFlag = v := by
  conv_lhs => unfold extractFlagValue
  rcases Bool.eq_false_or_eq_true
      (goStartsWith (shortFlag ++ chars "=" ++ v) (longFlag ++ chars "=")) with hb | hb
  · have heq : longFlag = shortFlag := eqfree_eq_of_goStartsWith longFlag hl shortFlag v hs hb
    rw [if_pos hb, heq]
    exact goTrimLead_append (shortFlag ++ chars "=") v
  · rw [if_neg (by simp [← List.append_assoc, hb]),
      if_pos (goStartsWith_append_self (shortFlag ++ chars "=") v)]
    exact goTrimLead_append (shortFlag ++ chars "=") v

theorem extractFlagValue_bare_eq (longFlag shortFlag m next : GoStr) (post : List GoStr)
    (hl : '=' ∉ longFlag) (hs : '=' ∉ shortFlag) (hm : m = longFlag ∨ m = shortFlag) :
    extractFlagValue (m :: next :: post) longFlag shortFlag = next := by
  have hm' : '=' ∉ m := by rcases hm with h | h <;> rw [h] <;> assumption
  conv_lhs => unfold extractFlagValue
  rw [if_neg (by simp [goStartsWith_eqflag_false m longFlag hm']),
    if_neg (by simp [goStartsWith_eqflag_false m shortFlag hm']),
    if_pos (by rcases hm with h | h <;> simp [h])]
  rfl

theorem extractFlagValue_sentinel : ∀ (args : List GoStr) (longFlag shortFlag : GoStr),
    (∀ a ∈ args, goStartsWith a (longFlag ++ chars "=") = false ∧
      goStartsWith a (shortFlag ++ chars "=") = false) →
    (∀ p ∈ args.zip args.tail, p.1 ≠ longFlag ∧ p.1 ≠ shortFlag) →
    extractFlagValue args longFlag shortFlag = chars "<not specified>" := by
  intro args
  induction args with
  | nil => intro longFlag shortFlag h1 h2; rfl
  | cons a t ih =>
    intro longFlag shortFlag h1 h2
    have ha := h1 a (List.mem_cons_self a t)
    cases t with
    | nil =>
      conv_lhs => unfold extractFlagValue
      rw [if_neg (by simp [ha.1]), if_neg (by simp [ha.2]), if_neg (by simp)]
      rfl
    | cons b t2 =>
      have hab := h2 (a, b) (by simp [List.zip_cons_cons])
      conv_lhs => unfold extractFlagValue
      rw [if_neg (by simp [ha.1]), if_neg (by simp [ha.2]),
        if_neg (by simp [hab.1, hab.2])]
      exact ih longFlag shortFlag (fun x hx => h1 x (List.mem_cons_of_mem a hx))
        (fun p hp => h2 p (by simp [List.zip_cons_cons]; right; simpa using hp))

end KubectlSafe.Safe

namespace KubectlSafe

theorem mainExit_of_result_run (env : Safe.Env)
    (hE : (Safe.Execute env).result = Safe.executeKubectl env.args env.child) :
    Safe.mainExitCode env = 0 ↔ env.child = RunResult.exited 0 := by
  unfold Safe.mainExitCode
  rw [hE]
  unfold Safe.executeKubectl runResultErr
  cases env.child with
  | spawnErr m => simp
  | exited c =>
    by_cases hc : c = 0
    · simp [hc]
    · simp [hc]

/-- Claim C1: for every argument vector classified as dangerous, if the
required-flag validation fails or the user does not give affirmative
confirmation (`showConfirmation` returns an error, which covers both a
decline and a read failure), `Execute` performs no `runKubectl` event —
the external tool is never invoked with that vector — and the process
exits with the non-zero status 1. -/
theorem claim1_guard_blocks (env : Safe.Env)
    (hd : Safe.isDangerousCommand env.args = true)
    (h : (∃ e, Safe.validateRequiredFlags env.args = Except.error e) ∨
      ∃ e, (Safe.showConfirmation env.args env.stdin).2 = Except.error e) :
    (∀ a, Safe.Event.runKubectl a ∉ (Safe.Execute env).events) ∧
      Safe.mainExitCode env ≠ 0 := by
  have hne : ¬ env.args.length = 0 := by
    intro h0
    rw [List.length_eq_zero] at h0
    rw [h0] at hd
    exact absurd hd (by decide)
  have hnd : ¬ (!Safe.isDangerousCommand env.args) = true := by simp [hd]
  cases hv : Safe.validateRequiredFlags env.args with
  | error e =>
    have hE : Safe.Execute env = ⟨[.validateFlags env.args], [], .error e⟩ := by
      unfold Safe.Execute
      rw [if_neg hne, if_neg hnd, hv]
    refine ⟨fun a => ?_, ?_⟩
    · rw [hE]; simp
    · unfold Safe.mainExitCode; rw [hE]; simp
  | ok u =>
    rcases h with ⟨e, hve⟩ | ⟨e, hcf⟩
    · rw [hv] at hve
      exact absurd hve (by simp)
    · have hE : Safe.Execute env =
          ⟨[.validateFlags env.args, .confirmStep env.args],
           (Safe.showConfirmation env.args env.stdin).1, .error e⟩ := by
        unfold Safe.Execute
        rw [if_neg hne, if_neg hnd, hv, hcf]
      refine ⟨fun a => ?_, ?_⟩
      · rw [hE]; simp
      · unfold Safe.mainExitCode; rw [hE]; simp

/-- Witness for C1 at the vector `[delete]`: validation fails (both flags
missing), the forwarder is never invoked, and the exit status is
non-zero. -/
theorem claim1_guard_blocks_witness :
    (∀ a, Safe.Event.runKubectl a ∉
      (Safe.Execute ⟨[chars "delete"], ⟨chars "", none⟩, RunResult.exited 0⟩).events) ∧
      Safe.mainExitCode ⟨[chars "delete"], ⟨chars "", none⟩, RunResult.exited 0⟩ ≠ 0 :=
  claim1_guard_blocks ⟨[chars "delete"], ⟨chars "", none⟩, RunResult.exited 0⟩ (by decide)
    (Or.inl ⟨Safe.missingMsg [chars "--context", chars "--namespace"], by decide⟩)

/-- Claim C3, counterexample: the root main.go argument parser does not
recognize the `short=value` shapes — on `[-c=prod, -n=default]` it reports
both flags unset although each is present in one of the four shapes, and
the orchestration consequently exits 1 for a dangerous command. -/
theorem claim3_counterexample :
    MainGo.parseContextAndNamespace [chars "-c=prod", chars "-n=default"] =
      (chars "", chars "", false, false) ∧
    Safe.ctxShape (chars "-c=prod") = true ∧ Safe.nsShape (chars "-n=default") = true ∧
    (MainGo.mainGo ⟨[chars "delete", chars "-c=prod", chars "-n=default"],
        ⟨chars "y\n", none⟩, Except.ok (chars "prod\n"), RunResult.exited 0⟩).exit = 1 := by
  decide

/-- Claim C3 (amended to the pkg/safe validator, which both pkg lineages
share): `validateRequiredFlags` succeeds iff the targeting-context flag and
the namespace flag each occur somewhere in the vector in one of the four
shapes (bare long, bare short, `long=value`, `short=value`), in any order
and position; otherwise it fails naming exactly the missing flag(s), joined
with `and` when both are missing.  The root main.go parser does not
recognize `-c`, `-c=value` or `-n=value` (see the counterexample). -/
theorem claim3_validator (args : List GoStr) :
    Safe.validateRequiredFlags args = Safe.specValidateRequiredFlags args ∧
      (Safe.validateRequiredFlags args = Except.ok () ↔
        args.any Safe.ctxShape = true ∧ args.any Safe.nsShape = true) := by
  refine ⟨Safe.validateRequiredFlags_eq_spec args, ?_⟩
  rw [Safe.validateRequiredFlags_eq_spec]
  unfold Safe.specValidateRequiredFlags
  rcases Bool.eq_false_or_eq_true (args.any Safe.ctxShape) with hc | hc <;>
    rcases Bool.eq_false_or_eq_true (args.any Safe.nsShape) with hn | hn <;>
    simp [hc, hn]

/-- Claim C4, counterexample: the empty vector is classified not-dangerous,
yet the orchestration does not invoke the forwarder on it — it shows the
usage text instead — refuting "for every vector classified false, the
orchestration invokes the forwarder directly". -/
theorem claim4_counterexample :
    Safe.isDangerousCommand [] = false ∧
    (Safe.Execute ⟨[], ⟨chars "", none⟩, RunResult.exited 0⟩).events =
      [Safe.Event.usageShown] := by decide

/-- Claim C4 (amended): the classifier returns true iff the vector is
non-empty with its first element in `DangerousCommands`; every NON-EMPTY
vector classified false is passed to the forwarder directly, with no
validation and no confirmation event; the empty vector instead shows the
usage text and invokes nothing. -/
theorem claim4_classifier :
    (∀ args : List GoStr, Safe.isDangerousCommand args = true ↔
      ∃ cmd rest, args = cmd :: rest ∧ cmd ∈ Safe.DangerousCommands) ∧
    (∀ env : Safe.Env, env.args ≠ [] → Safe.isDangerousCommand env.args = false →
      Safe.Execute env = ⟨[Safe.Event.runKubectl env.args], [],
        Safe.executeKubectl env.args env.child⟩) ∧
    (∀ env : Safe.Env, env.args = [] →
      Safe.Execute env = ⟨[Safe.Event.usageShown], [Safe.usageText], Except.ok ()⟩) := by
  refine ⟨fun args => ?_, fun env hne hnd => ?_, fun env h0 => ?_⟩
  · cases args with
    | nil => simp [Safe.isDangerousCommand]
    | cons cmd rest =>
      simp only [Safe.isDangerousCommand]
      constructor
      · intro hm
        exact ⟨cmd, rest, rfl, by simpa using hm⟩
      · rintro ⟨c, r, heq, hm⟩
        cases heq
        simpa using hm
  · unfold Safe.Execute
    rw [if_neg (by simpa [List.length_eq_zero] using hne), if_pos (by simp [hnd])]
  · unfold Safe.Execute
    rw [if_pos (by simp [h0])]
    rfl

/-- Witness for C4 at the vector `[get]`: non-empty, classified
not-dangerous, passed straight to the forwarder. -/
theorem claim4_classifier_witness :
    Safe.Execute ⟨[chars "get"], ⟨chars "", none⟩, RunResult.exited 0⟩ =
      ⟨[Safe.Event.runKubectl [chars "get"]], [],
        Safe.executeKubectl [chars "get"] (RunResult.exited 0)⟩ :=
  claim4_classifier.2.1 ⟨[chars "get"], ⟨chars "", none⟩, RunResult.exited 0⟩
    (by decide) (by decide)

theorem proceeding_notin_prompts (args : List GoStr) :
    chars "Proceeding with operation...\n" ∉ Safe.confirmPrompts args := by
  have hP : List.headD (chars "Proceeding with operation...\n") ' ' = 'P' := rfl
  intro hmem
  simp only [Safe.confirmPrompts, List.mem_cons, List.not_mem_nil, or_false] at hmem
  rcases hmem with h | h | h | h | h | h | h
  · exact absurd h (by decide)
  · have h2 := congrFun (congrArg List.headD h) ' '
    rw [hP, show List.headD (chars "You are about to execute: kubectl " ++
      goJoin args (chars " ") ++ chars "\n\n") ' ' = 'Y' from rfl] at h2
    exact absurd h2 (by decide)
  · exact absurd h (by decide)
  · have h2 := congrFun (congrArg List.headD h) ' '
    rw [hP, show List.headD (chars "  Context:   " ++
      Safe.extractFlagValue args (chars "--context") (chars "-c") ++ chars "\n") ' ' = ' '
      from rfl] at h2
    exact absurd h2 (by decide)
  · have h2 := congrFun (congrArg List.headD h) ' '
    rw [hP, show List.headD (chars "  Namespace: " ++
      Safe.extractFlagValue args (chars "--namespace") (chars "-n") ++ chars "\n\n") ' ' = ' '
      from rfl] at h2
    exact absurd h2 (by decide)
  · exact absurd h (by decide)
  · exact absurd h (by decide)

/-- Claim C2, counterexample: the root main.go confirmation (the
`askForConfirmation` that discards the read error) rejects the line `yes`
— only `y` is affirmative there — and turns a read failure into a plain
cancellation rather than an IOError, refuting the claim as stated. -/
theorem claim2_counterexample :
    MainGo.askForConfirmationV1 ⟨chars "yes\n", none⟩ = false ∧
      MainGo.askForConfirmationV1 ⟨chars "", some (chars "EOF")⟩ = false := by decide

/-- Claim C2 (amended): in pkg/safe, `showConfirmation` accepts exactly the
lines whose lowercased, trimmed form is `yes` or `y`; every other line
yields the `operation cancelled by user` error; a read failure yields an
error wrapping the underlying failure and the proceeding message is not
printed.  In the root main.go lineage, only `y` is affirmative and a read
failure is treated as cancellation (`false`), not as a distinct IOError. -/
theorem claim2_confirmation :
    (∀ (args : List GoStr) (line : GoStr),
      (Safe.showConfirmation args ⟨line, none⟩).2 =
        if goTrimSpace (goToLower line) = chars "yes" ∨
            goTrimSpace (goToLower line) = chars "y" then Except.ok ()
        else Except.error (chars "operation cancelled by user")) ∧
    (∀ (args : List GoStr) (line e : GoStr),
      (Safe.showConfirmation args ⟨line, some e⟩).2 =
        Except.error (chars "failed to read user input: " ++ e) ∧
      chars "Proceeding with operation...\n" ∉ (Safe.showConfirmation args ⟨line, some e⟩).1) ∧
    (∀ stdin : ReadLine,
      MainGo.askForConfirmationV1 stdin = (goToLower (goTrimSpace stdin.line) == chars "y")) ∧
    (∀ (line e : GoStr), MainGo.askForConfirmation ⟨line, some e⟩ = false) := by
  refine ⟨fun args line => ?_, fun args line e => ⟨rfl, proceeding_notin_prompts args⟩,
    fun stdin => rfl, fun line e => rfl⟩
  by_cases hyes : goTrimSpace (goToLower line) = chars "yes" ∨
      goTrimSpace (goToLower line) = chars "y"
  · rw [if_pos hyes]
    rcases hyes with h | h <;> simp [Safe.showConfirmation, h]
  · rw [if_neg hyes]
    push_neg at hyes
    simp [Safe.showConfirmation, hyes.1, hyes.2]

/-- Claim C5, counterexample: in the root main.go lineage a failure of the
context-listing call makes `contextExists` return `false`, so the program
reports the context as not existing in the kubeconfig — not a distinct
"could not verify" error — refuting "it is never reported as if the
context simply did not exist". -/
theorem claim5_counterexample :
    MainGo.contextExists (chars "prod") (Except.error (chars "kubectl not found")) = false ∧
    MainGo.mainGo ⟨[chars "delete", chars "pod", chars "--context=prod", chars "--namespace=d"],
        ⟨chars "y\n", none⟩, Except.error (chars "kubectl not found"), RunResult.exited 0⟩ =
      ⟨[], [chars "ERROR: The specified context 'prod' does not exist in your kubeconfig.",
            chars "Please check your --context value and try again."], 1⟩ := by decide

/-- Claim C5 (amended): in the pkg/safe verifying lineage, a failure of the
context-listing call surfaces as the distinct wrapped `failed to get
available contexts` error — different from validation success and from the
unknown-target error — and any validation error blocks execution of the
dangerous command; in the root main.go lineage the same failure makes
`contextExists` return false, so it is reported as the context not
existing (still blocking execution, see the counterexample). -/
theorem claim5_lookup_failure :
    (∀ (args : List GoStr) (e : GoStr),
      args.any Safe.ctxShape = true → args.any Safe.nsShape = true →
      SafeV2.extractContextValue args ≠ chars "" →
      SafeV2.extractContextValue args ≠ chars "<not specified>" →
      SafeV2.validateRequiredFlags args (Except.error e) =
        Except.error (SafeV2.lookupFailMsg e)) ∧
    (∀ e : GoStr, (Except.error (SafeV2.lookupFailMsg e) : Except GoStr Unit) ≠
      Except.ok ()) ∧
    (∀ (e cv : GoStr) (cs : List GoStr), SafeV2.lookupFailMsg e ≠ SafeV2.notFoundMsg cv cs) ∧
    (∀ env : SafeV2.Env, Safe.isDangerousCommand env.args = true →
      (∃ e, SafeV2.validateRequiredFlags env.args env.kubeOut = Except.error e) →
      (∀ a, Safe.Event.runKubectl a ∉ (SafeV2.Execute env).events) ∧
        SafeV2.mainExitCode env ≠ 0) ∧
    (∀ (context e : GoStr), MainGo.contextExists context (Except.error e) = false) := by
  refine ⟨fun args e hc hn h1 h2 => ?_, fun e => by simp, fun e cv cs h => ?_,
    fun env hd h => ?_, fun context e => ?_⟩
  · rw [SafeV2.validateRequiredFlagsV2_eq_spec]
    unfold SafeV2.validateSpec SafeV2.getKubeconfigContexts SafeV2.lookupFailMsg
    simp [hc, hn, h1, h2]
  · have h1 : (SafeV2.lookupFailMsg e).headD ' ' = 'f' := rfl
    have h2 : (SafeV2.notFoundMsg cv cs).headD ' ' = 'c' := rfl
    rw [← h] at h2
    rw [h1] at h2
    exact absurd h2 (by decide)
  · have hne : ¬ env.args.length = 0 := by
      intro h0
      rw [List.length_eq_zero] at h0
      rw [h0] at hd
      exact absurd hd (by decide)
    have hnd : ¬ (!Safe.isDangerousCommand env.args) = true := by simp [hd]
    obtain ⟨e, hv⟩ := h
    have hE : SafeV2.Execute env = ⟨[.validateFlags env.args], [], .error e⟩ := by
      unfold SafeV2.Execute
      rw [if_neg hne, if_neg hnd, hv]
    refine ⟨fun a => ?_, ?_⟩
    · rw [hE]; simp
    · unfold SafeV2.mainExitCode; rw [hE]; simp
  · unfold MainGo.contextExists
    rcases Bool.eq_false_or_eq_true (context == chars "") with hb | hb <;> simp [hb]

/-- Witness for C5 at the vector `[delete, --context=prod, --namespace=d]`
with a failed lookup: the validator returns the wrapped lookup error. -/
theorem claim5_lookup_failure_witness :
    SafeV2.validateRequiredFlags
      [chars "delete", chars "--context=prod", chars "--namespace=d"]
      (Except.error (chars "boom")) =
      Except.error (SafeV2.lookupFailMsg (chars "boom")) :=
  claim5_lookup_failure.1 [chars "delete", chars "--context=prod", chars "--namespace=d"]
    (chars "boom") (by decide) (by decide) (by decide) (by decide)

/-- Claim C6, counterexample: a pass-through command whose child exits with
status 2 makes the wrapper exit with status 1, not 2 — the wrapper's exit
code does not equal the child's exit code. -/
theorem claim6_counterexample :
    (Safe.Execute ⟨[chars "get", chars "pods"], ⟨chars "", none⟩, RunResult.exited 2⟩).events =
      [Safe.Event.runKubectl [chars "get", chars "pods"]] ∧
    Safe.mainExitCode ⟨[chars "get", chars "pods"], ⟨chars "", none⟩, RunResult.exited 2⟩ = 1 ∧
    MainGo.exitOf (RunResult.exited 2) = 1 := by decide

/-- Claim C6 (amended): whenever the external tool is executed, the
wrapper's result is exactly the child's run outcome — a spawn failure or
non-zero exit is propagated as an error and never swallowed — and the
wrapper exits 0 iff the child exited 0; any child failure (and likewise in
the root main.go lineage) yields wrapper exit 1, which is non-zero but not
necessarily equal to the child's code. -/
theorem claim6_exit_propagation :
    (∀ env : Safe.Env, Safe.Event.runKubectl env.args ∈ (Safe.Execute env).events →
      (Safe.Execute env).result = Safe.executeKubectl env.args env.child ∧
      (Safe.mainExitCode env = 0 ↔ env.child = RunResult.exited 0)) ∧
    (∀ child : RunResult, MainGo.exitOf child = 0 ↔ child = RunResult.exited 0) := by
  constructor
  · intro env hmem
    have hres : (Safe.Execute env).result = Safe.executeKubectl env.args env.child := by
      by_cases h0 : env.args.length = 0
      · have hE : Safe.Execute env = ⟨[.usageShown], Safe.showUsage.1, Safe.showUsage.2⟩ := by
          unfold Safe.Execute; rw [if_pos h0]
        rw [hE] at hmem
        simp at hmem
      · rcases Bool.eq_false_or_eq_true (Safe.isDangerousCommand env.args) with hd | hd
        · cases hv : Safe.validateRequiredFlags env.args with
          | error e =>
            have hE : Safe.Execute env = ⟨[.validateFlags env.args], [], .error e⟩ := by
              unfold Safe.Execute
              rw [if_neg h0, if_neg (by simp [hd]), hv]
            rw [hE] at hmem
            simp at hmem
          | ok u =>
            cases hcf : (Safe.showConfirmation env.args env.stdin).2 with
            | error e =>
              have hE : Safe.Execute env =
                  ⟨[.validateFlags env.args, .confirmStep env.args],
                   (Safe.showConfirmation env.args env.stdin).1, .error e⟩ := by
                unfold Safe.Execute
                rw [if_neg h0, if_neg (by simp [hd]), hv, hcf]
              rw [hE] at hmem
              simp at hmem
            | ok v =>
              have hE : Safe.Execute env =
                  ⟨[.validateFlags env.args, .confirmStep env.args, .runKubectl env.args],
                   (Safe.showConfirmation env.args env.stdin).1,
                   Safe.executeKubectl env.args env.child⟩ := by
                unfold Safe.Execute
                rw [if_neg h0, if_neg (by simp [hd]), hv, hcf]
              rw [hE]
        · have hE : Safe.Execute env =
              ⟨[.runKubectl env.args], [], Safe.executeKubectl env.args env.child⟩ := by
            unfold Safe.Execute
            rw [if_neg h0, if_pos (by simp [hd])]
          rw [hE]
    exact ⟨hres, mainExit_of_result_run env hres⟩
  · intro child
    unfold MainGo.exitOf runResultErr
    cases child with
    | spawnErr m => simp
    | exited c =>
      by_cases hc : c = 0
      · simp [hc]
      · simp [hc]

/-- Witness for C6 at the pass-through vector `[get]` with a child that
exits 0. -/
theorem claim6_exit_propagation_witness :
    (Safe.Execute ⟨[chars "get"], ⟨chars "", none⟩, RunResult.exited 0⟩).result =
      Safe.executeKubectl [chars "get"] (RunResult.exited 0) ∧
    (Safe.mainExitCode ⟨[chars "get"], ⟨chars "", none⟩, RunResult.exited 0⟩ = 0 ↔
      RunResult.exited 0 = RunResult.exited 0) :=
  claim6_exit_propagation.1 ⟨[chars "get"], ⟨chars "", none⟩, RunResult.exited 0⟩ (by decide)

/-- Claim C7, counterexample: on `[delete, -n, foo, --context]` the context
flag is present (bare, in last position), extraction yields the sentinel,
and the second-lineage validator succeeds without consulting the context
list at all — even a failing lookup does not block — refuting
"verification is applied regardless of whether the extracted value is the
empty string or equals the sentinel". -/
theorem claim7_counterexample :
    SafeV2.extractContextValue [chars "delete", chars "-n", chars "foo", chars "--context"] =
      chars "<not specified>" ∧
    SafeV2.validateRequiredFlags [chars "delete", chars "-n", chars "foo", chars "--context"]
      (Except.error (chars "boom")) = Except.ok () := by decide

/-- Claim C7 (amended): presence of the required flags is determined solely
by the validator's own scan, but the context-value verification is gated:
it is skipped exactly when the extracted value is the empty string or the
sentinel `<not specified>`, in which case the validator succeeds
independently of the lookup outcome. -/
theorem claim7_sentinel_gate :
    (∀ (args : List GoStr) (kubeOut : Except GoStr GoStr),
      SafeV2.validateRequiredFlags args kubeOut = SafeV2.validateSpec args kubeOut) ∧
    (∀ (args : List GoStr) (kubeOut₁ kubeOut₂ : Except GoStr GoStr),
      args.any Safe.ctxShape = true → args.any Safe.nsShape = true →
      (SafeV2.extractContextValue args = chars "" ∨
        SafeV2.extractContextValue args = chars "<not specified>") →
      SafeV2.validateRequiredFlags args kubeOut₁ = Except.ok () ∧
        SafeV2.validateRequiredFlags args kubeOut₁ =
          SafeV2.validateRequiredFlags args kubeOut₂) ∧
    (∀ (args : List GoStr) (kubeOut : Except GoStr GoStr),
      args.any Safe.ctxShape = false →
      SafeV2.validateRequiredFlags args kubeOut =
        Except.error (Safe.missingMsg (chars "--context" ::
          (if args.any Safe.nsShape = true then [] else [chars "--namespace"])))) := by
  refine ⟨SafeV2.validateRequiredFlagsV2_eq_spec, fun args k1 k2 hc hn hcv => ?_,
    fun args kubeOut hc => ?_⟩
  · rw [SafeV2.validateRequiredFlagsV2_eq_spec, SafeV2.validateRequiredFlagsV2_eq_spec]
    unfold SafeV2.validateSpec
    rcases hcv with h | h <;> simp [hc, hn, h]
  · rw [SafeV2.validateRequiredFlagsV2_eq_spec]
    unfold SafeV2.validateSpec
    rcases Bool.eq_false_or_eq_true (args.any Safe.nsShape) with hn | hn <;> simp [hc, hn]

/-- Witness for C7 at `[delete, -n, foo, --context]`: with the context flag
present but extraction yielding the sentinel, the validator succeeds and
ignores the lookup outcome entirely. -/
theorem claim7_sentinel_gate_witness :
    SafeV2.validateRequiredFlags [chars "delete", chars "-n", chars "foo", chars "--context"]
        (Except.error (chars "boom")) = Except.ok () ∧
      SafeV2.validateRequiredFlags [chars "delete", chars "-n", chars "foo", chars "--context"]
          (Except.error (chars "boom")) =
        SafeV2.validateRequiredFlags [chars "delete", chars "-n", chars "foo", chars "--context"]
          (Except.ok (chars "prod\n")) :=
  claim7_sentinel_gate.2.1 [chars "delete", chars "-n", chars "foo", chars "--context"]
    (Except.error (chars "boom")) (Except.ok (chars "prod\n"))
    (by decide) (by decide) (Or.inr (by decide))

/-- Claim C8: `extractFlagValue` round-trips.  For flag names (which
contain no `=`) and a value containing neither `=` nor whitespace,
embedding the flag at the head of the vector as the single element
`flag=value` or as the two consecutive elements `flag`, `value` yields
exactly that value; and on a vector where the flag matches in no
supported shape — no element carries a `long=`/`short=` prefix and no
element equal to the bare flag has a successor — the sentinel
`<not specified>` is returned. -/
theorem claim8_roundtrip :
    (∀ (longFlag shortFlag v : GoStr) (t : List GoStr),
      '=' ∉ longFlag → '=' ∉ shortFlag → '=' ∉ v → (∀ c ∈ v, ¬ c.isWhitespace) →
      Safe.extractFlagValue ((longFlag ++ chars "=" ++ v) :: t) longFlag shortFlag = v ∧
      Safe.extractFlagValue ((shortFlag ++ chars "=" ++ v) :: t) longFlag shortFlag = v ∧
      Safe.extractFlagValue (longFlag :: v :: t) longFlag shortFlag = v ∧
      Safe.extractFlagValue (shortFlag :: v :: t) longFlag shortFlag = v) ∧
    (∀ (args : List GoStr) (longFlag shortFlag : GoStr),
      (∀ a ∈ args, goStartsWith a (longFlag ++ chars "=") = false ∧
        goStartsWith a (shortFlag ++ chars "=") = false) →
      (∀ p ∈ args.zip args.tail, p.1 ≠ longFlag ∧ p.1 ≠ shortFlag) →
      Safe.extractFlagValue args longFlag shortFlag = chars "<not specified>") := by
  refine ⟨fun longFlag shortFlag v t hl hs hv hw => ?_, Safe.extractFlagValue_sentinel⟩
  exact ⟨Safe.extractFlagValue_long_eq longFlag shortFlag v t,
    Safe.extractFlagValue_short_eq longFlag shortFlag v t hl hs,
    Safe.extractFlagValue_bare_eq longFlag shortFlag longFlag v t hl hs (Or.inl rfl),
    Safe.extractFlagValue_bare_eq longFlag shortFlag shortFlag v t hl hs (Or.inr rfl)⟩

/-- Witness for C8 at the real flag pair `--context`/`-c` and the value
`prod`: all four embeddings round-trip, and a flagless vector yields the
sentinel. -/
theorem claim8_roundtrip_witness :
    (Safe.extractFlagValue [chars "--context" ++ chars "=" ++ chars "prod"]
        (chars "--context") (chars "-c") = chars "prod" ∧
      Safe.extractFlagValue [chars "-c" ++ chars "=" ++ chars "prod"]
        (chars "--context") (chars "-c") = chars "prod" ∧
      Safe.extractFlagValue [chars "--context", chars "prod"]
        (chars "--context") (chars "-c") = chars "prod" ∧
      Safe.extractFlagValue [chars "-c", chars "prod"]
        (chars "--context") (chars "-c") = chars "prod") ∧
    Safe.extractFlagValue [chars "delete", chars "pod"] (chars "--context") (chars "-c") =
      chars "<not specified>" :=
  ⟨claim8_roundtrip.1 (chars "--context") (chars "-c") (chars "prod") []
      (by decide) (by decide) (by decide) (by decide),
    claim8_roundtrip.2 [chars "delete", chars "pod"] (chars "--context") (chars "-c")
      (by decide) (by decide)⟩

/-- Claim C9, counterexample: in the root main.go lineage, zero arguments
run the external tool with an empty argument vector (`kubectl` help) and
mirror its exit status — here the child fails and the wrapper exits 1 —
refuting "terminates successfully without invoking the external tool". -/
theorem claim9_counterexample :
    MainGo.mainGo ⟨[], ⟨chars "", none⟩, Except.ok (chars ""), RunResult.exited 1⟩ =
      ⟨[[]], [], 1⟩ := by decide

/-- Claim C9 (amended): in the pkg/safe lineage, zero arguments print the
usage text — which embeds the live, comma-joined list of dangerous
commands — and exit 0 without any forwarder invocation; in the root
main.go lineage, zero arguments instead invoke the external tool with no
arguments and mirror its success or failure. -/
theorem claim9_usage :
    (∀ env : Safe.Env, env.args = [] →
      Safe.Execute env = ⟨[Safe.Event.usageShown], [Safe.usageText], Except.ok ()⟩ ∧
        Safe.mainExitCode env = 0) ∧
    (∃ pre post, Safe.usageText =
      pre ++ goJoin Safe.DangerousCommands (chars ", ") ++ post) ∧
    (∀ env : MainGo.Env, env.argv = [] →
      (MainGo.mainGo env).calls = [[]] ∧
        (MainGo.mainGo env).exit = MainGo.exitOf env.child) := by
  refine ⟨fun env h0 => ?_, ⟨Safe.usagePre, Safe.usagePost, by
    unfold Safe.usageText
    rw [List.append_assoc]⟩, fun env h0 => ?_⟩
  · have hE : Safe.Execute env = ⟨[Safe.Event.usageShown], [Safe.usageText], Except.ok ()⟩ := by
      unfold Safe.Execute
      rw [if_pos (by simp [h0])]
      rfl
    exact ⟨hE, by unfold Safe.mainExitCode; rw [hE]⟩
  · have hE : MainGo.mainGo env = ⟨[[]], [], MainGo.exitOf env.child⟩ := by
      unfold MainGo.mainGo
      rw [if_pos (by simp [h0])]
    rw [hE]
    exact ⟨rfl, rfl⟩

/-- Witness for C9 at the empty vector: usage shown, success, no
forwarder event; and in the main.go lineage the forwarder runs bare. -/
theorem claim9_usage_witness :
    (Safe.Execute ⟨[], ⟨chars "", none⟩, RunResult.exited 0⟩ =
      ⟨[Safe.Event.usageShown], [Safe.usageText], Except.ok ()⟩ ∧
      Safe.mainExitCode ⟨[], ⟨chars "", none⟩, RunResult.exited 0⟩ = 0) ∧
    ((MainGo.mainGo ⟨[], ⟨chars "", none⟩, Except.ok (chars ""), RunResult.exited 0⟩).calls =
      [[]] ∧
      (MainGo.mainGo ⟨[], ⟨chars "", none⟩, Except.ok (chars ""), RunResult.exited 0⟩).exit =
        MainGo.exitOf (RunResult.exited 0)) :=
  ⟨claim9_usage.1 ⟨[], ⟨chars "", none⟩, RunResult.exited 0⟩ rfl,
    claim9_usage.2.2 ⟨[], ⟨chars "", none⟩, Except.ok (chars ""), RunResult.exited 0⟩ rfl⟩

/-- Claim C10, counterexample: with two bare occurrences of the flag,
`[--context, x, --context, y]`, the element `--context` at index 2 has the
following element `y`, yet `extractFlagValue` returns `x` — the claim's
"returns that immediately following element" does not hold of every
matching element, only of the first match in scan order. -/
theorem claim10_counterexample :
    Safe.extractFlagValue [chars "--context", chars "x", chars "--context", chars "y"]
        (chars "--context") (chars "-c") = chars "x" ∧
      chars "x" ≠ chars "y" := by decide

/-- Claim C10 (amended): when the FIRST match of the flag in scan order is
an element exactly equal to the long or short flag name with a following
element, `extractFlagValue` returns that following element unconditionally
— no constraint at all is placed on it, so it may itself be a flag token
such as `--namespace` — while the presence scan of `validateRequiredFlags`
still counts both flags as present on such a vector. -/
theorem claim10_lookahead :
    (∀ (pre post : List GoStr) (longFlag shortFlag m next : GoStr),
      '=' ∉ longFlag → '=' ∉ shortFlag →
      (∀ a ∈ pre, Safe.noFlagMatch longFlag shortFlag a = true) →
      (m = longFlag ∨ m = shortFlag) →
      Safe.extractFlagValue (pre ++ m :: next :: post) longFlag shortFlag = next) ∧
    (∀ pre post : List GoStr,
      Safe.validateRequiredFlags (pre ++ chars "--context" :: chars "--namespace" :: post) =
        Except.ok ()) := by
  constructor
  · intro pre post longFlag shortFlag m next hl hs hpre hm
    rw [Safe.extractFlagValue_append_skip pre (m :: next :: post) longFlag shortFlag hpre]
    exact Safe.extractFlagValue_bare_eq longFlag shortFlag m next post hl hs hm
  · intro pre post
    rw [Safe.validateRequiredFlags_eq_spec]
    unfold Safe.specValidateRequiredFlags
    rw [if_pos, if_pos]
    · exact List.any_eq_true.mpr ⟨chars "--namespace", by simp, by decide⟩
    · exact List.any_eq_true.mpr ⟨chars "--context", by simp, by decide⟩

/-- Witness for C10 at `[delete, --context, --namespace, x]`: the context
value extracted (and displayed in the banner) is the flag token
`--namespace`, and the validator accepts the vector. -/
theorem claim10_lookahead_witness :
    Safe.extractFlagValue ([chars "delete"] ++
        chars "--context" :: chars "--namespace" :: [chars "x"])
        (chars "--context") (chars "-c") = chars "--namespace" ∧
      Safe.validateRequiredFlags ([chars "delete"] ++
        chars "--context" :: chars "--namespace" :: [chars "x"]) = Except.ok () :=
  ⟨claim10_lookahead.1 [chars "delete"] [chars "x"] (chars "--context") (chars "-c")
      (chars "--context") (chars "--namespace") (by decide) (by decide)
      (by decide) (Or.inl rfl),
    claim10_lookahead.2 [chars "delete"] [chars "x"]⟩

end KubectlSafe
